import Mathlib

/-!
Verification development for the resilient real-time data client of the
Quant Analytics Dashboard frontend.

The embedding follows the integrated `useWebSocket` hook and the analytics /
rolling-history update logic in `frontend/src/App.jsx` (which subsumes
`frontend/src/hooks/useWebSocket.js`; the URL-resolution functions
`buildDefaultUrl` / `getUrl` are taken from the hooks file, which additionally
honours the `window.__WS_URL__` / `window.__WS_PORT__` globals).

Conventions of the embedding:
* JSON values are modelled by the inductive `JsonValue`, with rationals in
  place of IEEE doubles (all inputs of interest are exactly representable).
* A JavaScript value delivered to the store is a `LiveData`: either a parsed
  JSON value or the raw payload string (when `JSON.parse` threw).
* `Number.prototype.toFixed(d)` is modelled by rounding to `d` decimals
  (`roundTo`); calling `.toFixed` on a non-number throws, modelled by
  `Except.error "TypeError"`.
* The React effect that folds a delivered message into the analytics snapshot,
  the previous snapshot and the rolling history is modelled as one sequential
  state transition `applyLive` (the spec's single-threaded execution model);
  a thrown `TypeError` is the `Except.error` case.
* The connection manager is a state machine `HookState` / `step`: sockets are
  numbered by construction order, `rsOf i` is the transport readyState of
  socket `i` (0 CONNECTING, 1 OPEN, 2 CLOSING, 3 CLOSED) and `attachedOf i`
  records whether the four handlers set in `connect` are still attached
  (`cleanupSocket` is the only place that detaches them).  `armed` is the
  list of not-yet-fired, not-yet-cleared `setTimeout` timers (id, delay);
  `timerRef` is `reconnectTimerRef.current`.  Every operation is a total
  function: "never throws" claims are reflected by totality, with the one
  internal try/catch (`wsRef.current.close()` on a null ref in `onerror`)
  modelled by the `none` branch doing nothing.
-/

namespace QuantDash

/-- JSON values (numbers as rationals). -/
inductive JsonValue where
  | jnull : JsonValue
  | jbool : Bool → JsonValue
  | jnum : ℚ → JsonValue
  | jstr : String → JsonValue
  | jarr : List JsonValue → JsonValue
  | jobj : List (String × JsonValue) → JsonValue

/-- A value held in the hook's `liveData` state: the parsed JSON value, or the
raw payload string when parsing failed (see `onmessage`). -/
inductive LiveData where
  | parsed : JsonValue → LiveData
  | raw : String → LiveData

/-- JavaScript object property lookup on a parsed JSON object
(`undefined` = `none`). -/
def getField : List (String × JsonValue) → String → Option JsonValue
  | [], _ => none
  | (k, v) :: rest, key => if k = key then some v else getField rest key

/-- Property access `liveData.key`: only a parsed JSON object has own
properties; everything else yields `undefined`. -/
def getProp : LiveData → String → Option JsonValue
  | .parsed (.jobj fs), key => getField fs key
  | _, _ => none

/-- JavaScript truthiness of a JSON value. -/
def truthyJson : JsonValue → Bool
  | .jnull => false
  | .jbool b => b
  | .jnum q => if q = 0 then false else true
  | .jstr s => if s = "" then false else true
  | .jarr _ => true
  | .jobj _ => true

/-- JavaScript truthiness of the `liveData` state value. -/
def truthyLive : LiveData → Bool
  | .parsed v => truthyJson v
  | .raw s => if s = "" then false else true

/-- `x.toFixed d` rounded result as a rational: round to `d` decimal places. -/
def roundTo (d : Nat) (q : ℚ) : ℚ :=
  ((round (q * (10 : ℚ) ^ d) : ℤ) : ℚ) / (10 : ℚ) ^ d

/-- `v.toFixed d` for a JavaScript value `v`: defined on numbers, a thrown
`TypeError` on every other value. -/
def jsToFixed : JsonValue → Nat → Except String ℚ
  | .jnum q, d => .ok (roundTo d q)
  | _, _ => .error "TypeError"

/-- The `onmessage` handler body (`App.jsx` lines 124-131): try to parse, on
success store the parsed value, on a parse error store the raw payload
unchanged.  `parse` stands for `JSON.parse`, with `none` for a throw. -/
def onmessage (parse : String → Option JsonValue) (data : String) : LiveData :=
  match parse data with
  | some v => .parsed v
  | none => .raw data

/-- The analytics snapshot (`analytics` / `prevAnalytics` state in `App.jsx`).
The three numeric fields are stored by the source as `toFixed` strings or the
sentinel `'---'`; here `none` is the sentinel and `some q` the rational the
stored string denotes. -/
structure Analytics where
  z_score : Option ℚ
  hedge_ratio : Option ℚ
  latest_spread : Option ℚ
  symbol_pair : JsonValue
  pie_summary : JsonValue

/-- The rolling-history state (`history` in `App.jsx`): three parallel series.
`none` entries in `hedgeRatio` cover the initial `null` fill and the `'---'`
sentinel; `none` in `spreadVelocity` is a `NaN` entry. -/
structure History where
  hedgeRatio : List (Option ℚ)
  spreadVelocity : List (Option ℚ)
  timestamps : List String

/-- Combined store state owned by the App component. -/
structure AppState where
  analytics : Analytics
  prevAnalytics : Analytics
  history : History

/-- `[...l.slice(1), x]`: shift left by one and push at the tail. -/
def shiftPush {α : Type} (l : List α) (x : α) : List α := l.drop 1 ++ [x]

/-- The `updateHistory` callback (`App.jsx` lines 325-347).  `prevA` is the
`prevAnalytics` state it closes over, `currentData` the freshly merged
snapshot.  `prevSpread = parseFloat(prevAnalytics.latest_spread) || currentSpread`:
`parseFloat('---')` is `NaN` (falsy) and a parsed `0` is falsy too, so both
fall back to the current spread; `velocity = currentSpread - prevSpread` is
`NaN` (here `none`) when the current spread is still the sentinel. -/
def updateHistory (prevA : Analytics) (h : History) (currentData : Analytics)
    (now : String) : History :=
  let currentSpread := currentData.latest_spread
  let prevSpread : Option ℚ :=
    match prevA.latest_spread with
    | some q => if q = 0 then currentSpread else some q
    | none => currentSpread
  let velocity : Option ℚ :=
    match currentSpread, prevSpread with
    | some a, some b => some (a - b)
    | _, _ => none
  { hedgeRatio := shiftPush h.hedgeRatio currentData.hedge_ratio
    spreadVelocity := shiftPush h.spreadVelocity velocity
    timestamps := shiftPush h.timestamps now }

/-- Field merge `live.f !== undefined ? live.f.toFixed(d) : analytics.f` for a
numeric snapshot field. -/
def mergeNum (old : Option ℚ) (v? : Option JsonValue) (d : Nat) :
    Except String (Option ℚ) :=
  match v? with
  | some v => (jsToFixed v d).map some
  | none => .ok old

/-- Field merge `live.f || analytics.f` (truthiness-based hold). -/
def mergeTruthy (v? : Option JsonValue) (old : JsonValue) : JsonValue :=
  match v? with
  | some v => if truthyJson v then v else old
  | none => old

/-- The App update effect (`App.jsx` lines 350-365) as one sequential
transition: gate on `liveData && liveData.z_score !== undefined`; build the
merged snapshot (object-literal fields evaluated left to right, so a
`TypeError` from `.toFixed` on a non-number propagates out); save the old
snapshot as previous and fold the merged snapshot into the history. -/
def applyLive (s : AppState) (live : LiveData) (now : String) :
    Except String AppState :=
  if truthyLive live && (getProp live "z_score").isSome then do
    let z ← mergeNum s.analytics.z_score (getProp live "z_score") 2
    let h ← mergeNum s.analytics.hedge_ratio (getProp live "hedge_ratio") 4
    let sp ← mergeNum s.analytics.latest_spread (getProp live "latest_spread") 3
    let newA : Analytics :=
      { z_score := z
        hedge_ratio := h
        latest_spread := sp
        symbol_pair := mergeTruthy (getProp live "symbol_pair") s.analytics.symbol_pair
        pie_summary := mergeTruthy (getProp live "pie_summary") s.analytics.pie_summary }
    .ok { analytics := newA
          prevAnalytics := s.analytics
          history := updateHistory s.analytics s.history newA now }
  else .ok s

/-- Fold a sequence of delivered messages (with their receipt times) through
the update effect, stopping at the first thrown exception. -/
def runUpdates (s : AppState) : List (LiveData × String) → Except String AppState
  | [] => .ok s
  | (m, now) :: rest =>
    match applyLive s m now with
    | .ok t => runUpdates t rest
    | .error e => .error e

/-- Initial analytics snapshot (`useState` initializer in `App.jsx`). -/
def initAnalytics : Analytics :=
  { z_score := none
    hedge_ratio := none
    latest_spread := none
    symbol_pair := .jstr "BTCUSDT / ETHUSDT"
    pie_summary := .jobj [("long", .jnum (1/10)), ("short", .jnum (1/10)),
                          ("neutral", .jnum (8/10))] }

/-- Initial rolling history with capacity `n` (the source uses `Array(10)`;
`hedgeRatio` filled with `null`, `spreadVelocity` with `0`, `timestamps`
with the empty string). -/
def initHistory (n : Nat) : History :=
  { hedgeRatio := List.replicate n none
    spreadVelocity := List.replicate n (some 0)
    timestamps := List.replicate n "" }

/-- Initial App store state (`prevAnalytics` starts as the current snapshot). -/
def initApp (n : Nat) : AppState :=
  { analytics := initAnalytics
    prevAnalytics := initAnalytics
    history := initHistory n }

/-- `DEFAULT_BACKEND_PORT` from `hooks/useWebSocket.js`. -/
def DEFAULT_BACKEND_PORT : String := "8000"

/-- `DEFAULT_PATH` from `hooks/useWebSocket.js`. -/
def DEFAULT_PATH : String := "/ws/live-analytics"

/-- `RECONNECT_MS` (fixed reconnect delay). -/
def RECONNECT_MS : Nat := 5000

/-- The browser environment visible to `buildDefaultUrl`: whether `window`
exists, the optional `window.__WS_URL__` / `window.__WS_PORT__` globals,
whether reading `window.location` succeeds (`locationOk = false` models a
throw that lands in the catch block), and the page's protocol and hostname. -/
structure BrowserEnv where
  windowDefined : Bool
  wsUrlGlobal : Option String
  wsPortGlobal : Option String
  locationOk : Bool
  protocol : String
  hostname : String

/-- Truthiness of an optional string-valued global (`undefined` and `""` are
falsy). -/
def truthyStr : Option String → Bool
  | some s => if s = "" then false else true
  | none => false

/-- `buildDefaultUrl` from `hooks/useWebSocket.js` lines 14-27: inside the
try block, with `window` defined, a truthy `__WS_URL__` is returned as is;
otherwise the port is `__WS_PORT__ || "8000"`, the scheme `wss:` exactly when
the page protocol is `https:`, the host `location.hostname || "localhost"`.
When `window` is undefined, or location introspection throws (caught and
logged), the hardcoded localhost default is returned.  Total: never throws. -/
def buildDefaultUrl (env : BrowserEnv) : String :=
  if env.windowDefined then
    if truthyStr env.wsUrlGlobal then env.wsUrlGlobal.getD ""
    else if env.locationOk then
      let port := if truthyStr env.wsPortGlobal then env.wsPortGlobal.getD ""
                  else DEFAULT_BACKEND_PORT
      let proto := if env.protocol = "https:" then "wss:" else "ws:"
      let host := if env.hostname = "" then "localhost" else env.hostname
      proto ++ "//" ++ host ++ ":" ++ port ++ DEFAULT_PATH
    else "ws://localhost:" ++ DEFAULT_BACKEND_PORT ++ DEFAULT_PATH
  else "ws://localhost:" ++ DEFAULT_BACKEND_PORT ++ DEFAULT_PATH

/-- `getUrl` from `hooks/useWebSocket.js` lines 37-40: a string override of
nonzero length is used verbatim, otherwise the default URL is built.
`none` covers a missing (or non-string) override argument. -/
def getUrl (urlOverride : Option String) (env : BrowserEnv) : String :=
  match urlOverride with
  | some s => if s.length ≠ 0 then s else buildDefaultUrl env
  | none => buildDefaultUrl env

/-! ### The connection manager state machine

State of the integrated `useWebSocket` hook (`App.jsx` lines 46-165).
Transport sockets are numbered by construction order: `numSocks` counts the
`new WebSocket(url)` calls that succeeded, `rsOf i` is socket `i`'s transport
readyState (`WebSocket.CONNECTING = 0`, `OPEN = 1`, `CLOSING = 2`,
`CLOSED = 3`; indices `≥ numSocks` read as detached closed sockets), and
`attachedOf i` whether the four handlers installed by `connect` are still
attached to socket `i`.  `readyState` is the hook's own reported state
(`ReadyState.UNSENT = 4` initially). -/

/-- Mutable state of one `useWebSocket` hook instance. -/
structure HookState where
  shouldConnect : Bool
  numSocks : Nat
  rsOf : Nat → Nat
  attachedOf : Nat → Bool
  wsRef : Option Nat
  timerRef : Option Nat
  armed : List (Nat × Nat)
  nextTimer : Nat
  readyState : Nat
  liveData : Option LiveData

/-- Pointwise function update. -/
def updF {α : Type} (f : Nat → α) (i : Nat) (x : α) : Nat → α :=
  fun j => if j = i then x else f j

/-- `rs === WebSocket.OPEN || rs === WebSocket.CONNECTING`. -/
def isLiveRS (rs : Nat) : Bool := rs = 0 || rs = 1

/-- `socket.close(..)`: a CONNECTING or OPEN transport moves to CLOSING,
otherwise the call is a no-op. -/
def closeSock (s : HookState) (i : Nat) : HookState :=
  if isLiveRS (s.rsOf i) then { s with rsOf := updF s.rsOf i 2 } else s

/-- `clearTimeout(reconnectTimerRef.current); reconnectTimerRef.current = null`
(only executed when the ref is non-null). -/
def clearTimer (s : HookState) : HookState :=
  match s.timerRef with
  | some id =>
    { s with
      armed := s.armed.filter (fun t => !(t.1 = id)),
      timerRef := none }
  | none => s

/-- `cleanupSocket` (`App.jsx` lines 59-83): cancel the pending reconnect
timer; if a socket is referenced, detach its four handlers first, then close
it when it is OPEN or CONNECTING; finally null the reference. -/
def cleanupSocket (s : HookState) : HookState :=
  let s1 := clearTimer s
  let s2 := match s1.wsRef with
    | some i => closeSock { s1 with attachedOf := updF s1.attachedOf i false } i
    | none => s1
  { s2 with wsRef := none }

/-- `scheduleReconnect` (`App.jsx` lines 86-94): do nothing when stopped or
when a timer is already pending; otherwise arm one `setTimeout` for
`RECONNECT_MS` and remember it in the ref. -/
def scheduleReconnect (s : HookState) : HookState :=
  if !s.shouldConnect then s
  else if s.timerRef.isSome then s
  else
    { s with
      armed := s.armed ++ [(s.nextTimer, RECONNECT_MS)],
      timerRef := some s.nextTimer,
      nextTimer := s.nextTimer + 1 }

/-- `connect` (`App.jsx` lines 96-148): no-op when stopped; no-op when the
referenced socket is OPEN or CONNECTING; otherwise report CONNECTING and
construct the transport (`ok = false` models `new WebSocket(url)` throwing
synchronously: the error is caught, a reconnect is scheduled, and connect
returns).  On success the new socket starts CONNECTING with all four
handlers attached and becomes the referenced socket. -/
def connectAttempt (ok : Bool) (s : HookState) : HookState :=
  if !s.shouldConnect then s
  else if (match s.wsRef with
           | some i => isLiveRS (s.rsOf i)
           | none => false) then s
  else
    let s1 := { s with readyState := 0 }
    if ok then
      { s1 with
        numSocks := s1.numSocks + 1,
        rsOf := updF s1.rsOf s1.numSocks 0,
        attachedOf := updF s1.attachedOf s1.numSocks true,
        wsRef := some s1.numSocks }
    else scheduleReconnect s1

/-- Events driving the hook: an invocation of `connect` (`ok` = whether the
constructor succeeds), an armed timer firing, the transport firing
open / message / error / close on socket `i`, and the lifecycle cleanup
(`shouldConnect = false` followed by `cleanupSocket`). -/
inductive Ev where
  | connect : Bool → Ev
  | timerFire : Nat → Bool → Ev
  | openE : Nat → Ev
  | msgE : Nat → LiveData → Ev
  | errorE : Nat → Ev
  | closeE : Nat → Ev
  | teardown : Ev

/-- One step of the hook.  Handler bodies run only while the socket's
handlers are attached.  `openE` requires a CONNECTING socket (a transport
never reopens), `msgE` an OPEN one, `closeE` fires once (socket not yet
CLOSED) and sets the transport state to CLOSED before the handler runs.
The `onerror` body closes the currently referenced socket
(`wsRef.current.close()`), swallowing the null-ref throw. -/
def step (s : HookState) : Ev → HookState
  | .connect ok => connectAttempt ok s
  | .timerFire id ok =>
    if s.armed.any (fun t => t.1 = id) then
      connectAttempt ok
        { s with
          armed := s.armed.filter (fun t => !(t.1 = id)),
          timerRef := none }
    else s
  | .openE i =>
    if s.rsOf i = 0 then
      let s1 := { s with rsOf := updF s.rsOf i 1 }
      if s.attachedOf i then { s1 with readyState := 1 } else s1
    else s
  | .msgE i v =>
    if s.rsOf i = 1 && s.attachedOf i then { s with liveData := some v } else s
  | .errorE i =>
    if s.attachedOf i then
      let s1 := { s with readyState := 3 }
      match s1.wsRef with
      | some j => closeSock s1 j
      | none => s1
    else s
  | .closeE i =>
    if s.rsOf i = 3 then s
    else
      let s1 := { s with rsOf := updF s.rsOf i 3 }
      if s.attachedOf i then scheduleReconnect { s1 with readyState := 3 } else s1
  | .teardown => cleanupSocket { s with shouldConnect := false }

/-- Hook state right after mount (`shouldConnect = true`; the mount effect's
`connect()` call is the explicit event `Ev.connect`). -/
def initHook : HookState :=
  { shouldConnect := true
    numSocks := 0
    rsOf := fun _ => 3
    attachedOf := fun _ => false
    wsRef := none
    timerRef := none
    armed := []
    nextTimer := 0
    readyState := 4
    liveData := none }

/-- Run a sequence of events. -/
def run (s : HookState) (evs : List Ev) : HookState := evs.foldl step s

/-- Number of sockets that are simultaneously OPEN or CONNECTING. -/
def liveCount (s : HookState) : Nat :=
  (List.range s.numSocks).countP (fun i => isLiveRS (s.rsOf i))

/-- Whether a JavaScript value is a number (has `toFixed`). -/
def isNumJ : JsonValue → Bool
  | .jnum _ => true
  | _ => false

/-- A well-formed metric update carrying numeric `z_score`, `hedge_ratio` and
`latest_spread`. -/
def mkMsg (z h sp : ℚ) : LiveData :=
  .parsed (.jobj [("z_score", .jnum z), ("hedge_ratio", .jnum h),
                  ("latest_spread", .jnum sp)])

/-- The spec's scenario feed: hedge ratios 1.0, 2.0, 3.0, 4.0 with spreads
10, 12, 9, 9. -/
def scenarioMsgs : List (LiveData × String) :=
  [(mkMsg 0 1 10, "a"), (mkMsg 0 2 12, "b"), (mkMsg 0 3 9, "c"),
   (mkMsg 0 4 9, "d")]

/-- Two accepted updates whose spreads are 0 and then 5. -/
def zeroSpreadMsgs : List (LiveData × String) :=
  [(mkMsg 0 1 0, "a"), (mkMsg 0 1 5, "b")]

/-- Event trace: connect; the socket closes (arming the reconnect timer); the
timer fires and connects socket 1; socket 1 errors (its handler closes it, so
it is CLOSING with handlers still attached); connect replaces it with socket
2, abandoning socket 1; teardown. -/
def abandonTrace : List Ev :=
  [.connect true, .closeE 0, .timerFire 0 true, .errorE 1, .connect true,
   .teardown]

/-- ArmedInv: the single armed timeout is exactly the one the ref points at:
the code's two guards (arm only when the ref is empty, clear via the ref)
keep `armed` and `timerRef` in lockstep. -/
def ArmedInv (s : HookState) : Prop :=
  s.armed = match s.timerRef with
    | none => []
    | some id => [(id, RECONNECT_MS)]

/-- LiveUnique: every OPEN-or-CONNECTING socket is the referenced one (hence
there is at most one). -/
def LiveUnique (s : HookState) : Prop :=
  ∀ i : Nat, isLiveRS (s.rsOf i) = true → s.wsRef = some i

/-- Inv: invariant of all reachable hook states. -/
def Inv (s : HookState) : Prop := ArmedInv s ∧ LiveUnique s

/-- Dead: state shape after teardown: stopped, no referenced socket, no
pending timer, and every socket whose handlers are still attached is at
least CLOSING. -/
def Dead (s : HookState) : Prop :=
  s.shouldConnect = false ∧ s.wsRef = none ∧ s.timerRef = none ∧
    s.armed = [] ∧ ∀ i, s.attachedOf i = true → isLiveRS (s.rsOf i) = false

/-! ## Helper lemmas -/

instance {ε α : Type} [DecidableEq ε] [DecidableEq α] : DecidableEq (Except ε α)
  | .ok a, .ok b =>
    if h : a = b then .isTrue (by rw [h])
    else .isFalse (fun hc => h (Except.ok.inj hc))
  | .ok _, .error _ => .isFalse (fun hc => Except.noConfusion hc)
  | .error _, .ok _ => .isFalse (fun hc => Except.noConfusion hc)
  | .error e, .error f =>
    if h : e = f then .isTrue (by rw [h])
    else .isFalse (fun hc => h (Except.error.inj hc))

theorem exbind_ok {α β : Type} (a : α) (f : α → Except String β) :
    (Except.ok a >>= f) = f a := rfl

theorem exbind_err {α β : Type} (e : String) (f : α → Except String β) :
    ((Except.error e : Except String α) >>= f) = Except.error e := rfl

theorem exmap_ok {α β : Type} (f : α → β) (a : α) :
    Except.map f (Except.ok a : Except String α) = Except.ok (f a) := rfl

theorem exmap_err {α β : Type} (f : α → β) (e : String) :
    Except.map f (Except.error e : Except String α) = Except.error e := rfl

theorem jsToFixed_nonnum {v : JsonValue} (d : Nat) (h : isNumJ v = false) :
    jsToFixed v d = Except.error "TypeError" := by
  cases v <;> simp_all [isNumJ, jsToFixed]

theorem mergeNum_none (old : Option ℚ) (d : Nat) :
    mergeNum old none d = Except.ok old := rfl

theorem applyLive_gate_false {s : AppState} {live : LiveData} {now : String}
    (h : (truthyLive live && (getProp live "z_score").isSome) = false) :
    applyLive s live now = Except.ok s := by
  simp [applyLive, h]

theorem length_zero_eq_empty {s : String} (h : s.length = 0) : s = "" := by
  cases s with
  | mk data =>
    cases data with
    | nil => rfl
    | cons a t => simp [String.length] at h

theorem shiftPush_getLast? {α : Type} (l : List α) (x : α) :
    (shiftPush l x).getLast? = some x := by
  simp [shiftPush]

theorem shiftPush_length {α : Type} {l : List α} (x : α) (h : 1 ≤ l.length) :
    (shiftPush l x).length = l.length := by
  cases l with
  | nil => simp at h
  | cons a t => simp [shiftPush]

/-! ## C3: last-known-value hold -/

/-- C3: the analytics snapshot is replaced only when the decoded update has a
defined `z_score`: a message without one leaves the entire store state
(snapshot, previous snapshot and history) unchanged, and in a successful
update every absent field keeps its value from the previous snapshot. -/
theorem C3_last_known_value_hold :
    (∀ (s : AppState) (live : LiveData) (now : String),
        getProp live "z_score" = none → applyLive s live now = Except.ok s) ∧
    (∀ (s : AppState) (live : LiveData) (now : String) (t : AppState),
        applyLive s live now = Except.ok t →
        (getProp live "hedge_ratio" = none →
            t.analytics.hedge_ratio = s.analytics.hedge_ratio) ∧
        (getProp live "latest_spread" = none →
            t.analytics.latest_spread = s.analytics.latest_spread) ∧
        (getProp live "symbol_pair" = none →
            t.analytics.symbol_pair = s.analytics.symbol_pair) ∧
        (getProp live "pie_summary" = none →
            t.analytics.pie_summary = s.analytics.pie_summary)) := by
  constructor
  · intro s live now hz
    exact applyLive_gate_false (by simp [hz])
  · intro s live now t h
    by_cases hg : (truthyLive live && (getProp live "z_score").isSome) = true
    · rw [applyLive, if_pos hg] at h
      rcases hz : mergeNum s.analytics.z_score (getProp live "z_score") 2 with e | z
      · rw [hz, exbind_err] at h
        exact absurd h (by simp)
      rcases hh : mergeNum s.analytics.hedge_ratio (getProp live "hedge_ratio") 4
        with e | hv
      · rw [hz, exbind_ok, hh, exbind_err] at h
        exact absurd h (by simp)
      rcases hsp : mergeNum s.analytics.latest_spread (getProp live "latest_spread") 3
        with e | spv
      · rw [hz, exbind_ok, hh, exbind_ok, hsp, exbind_err] at h
        exact absurd h (by simp)
      rw [hz, exbind_ok, hh, exbind_ok, hsp, exbind_ok] at h
      obtain rfl : _ = t := Except.ok.inj h
      refine ⟨?_, ?_, ?_, ?_⟩
      · intro habs
        rw [habs, mergeNum_none] at hh
        simpa using (Except.ok.inj hh).symm
      · intro habs
        rw [habs, mergeNum_none] at hsp
        simpa using (Except.ok.inj hsp).symm
      · intro habs
        simp [habs, mergeTruthy]
      · intro habs
        simp [habs, mergeTruthy]
    · rw [applyLive_gate_false (by simpa using hg)] at h
      obtain rfl : s = t := Except.ok.inj h
      exact ⟨fun _ => rfl, fun _ => rfl, fun _ => rfl, fun _ => rfl⟩

/-- Witness for C3 at the spec's own scenario: a message carrying only
`symbol_pair` (no `z_score`) leaves the store state unchanged. -/
theorem C3_witness :
    applyLive (initApp 10)
      (.parsed (.jobj [("symbol_pair", .jstr "BTCUSDT/ETHUSDT")])) "t" =
      Except.ok (initApp 10) :=
  C3_last_known_value_hold.1 (initApp 10)
    (.parsed (.jobj [("symbol_pair", .jstr "BTCUSDT/ETHUSDT")])) "t" rfl

/-! ## C6: malformed payloads -/

/-- C6: a payload that fails structural decode is delivered to the subscriber
as the raw value unchanged (the handler is total, hence never throws), and
such a raw value does not change the snapshot, the previous snapshot or the
rolling history. -/
theorem C6_malformed_payload :
    ∀ (parse : String → Option JsonValue) (data : String),
      parse data = none →
      onmessage parse data = LiveData.raw data ∧
      (∀ (s : AppState) (now : String),
          applyLive s (.raw data) now = Except.ok s) := by
  intro parse data hp
  constructor
  · simp [onmessage, hp]
  · intro s now
    exact applyLive_gate_false (by simp [getProp])

/-- Witness for C6: a concrete non-JSON payload is passed through raw and
leaves the store untouched. -/
theorem C6_witness :
    onmessage (fun _ => none) "not-json" = LiveData.raw "not-json" ∧
      applyLive (initApp 10) (.raw "not-json") "t" = Except.ok (initApp 10) :=
  ⟨(C6_malformed_payload (fun _ => none) "not-json" rfl).1,
   (C6_malformed_payload (fun _ => none) "not-json" rfl).2 (initApp 10) "t"⟩

/-! ## C10: non-numeric fields throw from `.toFixed` -/

/-- C10: the update gate checks only that `z_score` is not `undefined`; a
delivered JSON object whose `z_score` (or, when present, `hedge_ratio` or
`latest_spread`) is defined but not a number makes the update effect throw a
`TypeError` from the `.toFixed` call instead of ignoring the message. -/
theorem C10_tofixed_typeerror :
    (∀ (s : AppState) (now : String) (fs : List (String × JsonValue))
        (v : JsonValue),
        getField fs "z_score" = some v → isNumJ v = false →
        applyLive s (.parsed (.jobj fs)) now = Except.error "TypeError") ∧
    (∀ (s : AppState) (now : String) (fs : List (String × JsonValue))
        (q : ℚ) (v : JsonValue),
        getField fs "z_score" = some (.jnum q) →
        getField fs "hedge_ratio" = some v → isNumJ v = false →
        applyLive s (.parsed (.jobj fs)) now = Except.error "TypeError") ∧
    (∀ (s : AppState) (now : String) (fs : List (String × JsonValue))
        (q : ℚ) (v : JsonValue),
        getField fs "z_score" = some (.jnum q) →
        (getField fs "hedge_ratio" = none ∨
          ∃ q2, getField fs "hedge_ratio" = some (.jnum q2)) →
        getField fs "latest_spread" = some v → isNumJ v = false →
        applyLive s (.parsed (.jobj fs)) now = Except.error "TypeError") := by
  refine ⟨?_, ?_, ?_⟩
  · intro s now fs v hz hnum
    rw [applyLive, if_pos (by simp [truthyLive, truthyJson, getProp, hz])]
    simp [getProp, hz, mergeNum, jsToFixed_nonnum 2 hnum, exmap_err, exbind_err]
  · intro s now fs q v hz hh hnum
    rw [applyLive, if_pos (by simp [truthyLive, truthyJson, getProp, hz])]
    simp [getProp, hz, hh, mergeNum, jsToFixed_nonnum 4 hnum,
      show jsToFixed (.jnum q) 2 = Except.ok (roundTo 2 q) from rfl,
      exmap_ok, exmap_err, exbind_ok, exbind_err]
  · intro s now fs q v hz hh hsp hnum
    rw [applyLive, if_pos (by simp [truthyLive, truthyJson, getProp, hz])]
    rcases hh with hh | ⟨q2, hh⟩ <;>
      simp [getProp, hz, hh, hsp, mergeNum, jsToFixed_nonnum 3 hnum,
        show ∀ r d, jsToFixed (.jnum r) d = Except.ok (roundTo d r) from
          fun _ _ => rfl,
        exmap_ok, exmap_err, exbind_ok, exbind_err]

/-- Witness for C10: a message whose `z_score` is JSON `null` throws. -/
theorem C10_witness :
    applyLive (initApp 10) (.parsed (.jobj [("z_score", JsonValue.jnull)])) "t" =
      Except.error "TypeError" :=
  C10_tofixed_typeerror.1 (initApp 10) "t" [("z_score", JsonValue.jnull)]
    JsonValue.jnull rfl rfl

/-! ## C4: rolling history bounds and FIFO order -/

theorem foldl_shiftPush {α : Type} (vs : List α) :
    ∀ l : List α, l ≠ [] →
      List.foldl shiftPush l vs = (l ++ vs).drop vs.length := by
  induction vs with
  | nil => intro l _; simp
  | cons v rest ih =>
    intro l hl
    cases l with
    | nil => exact absurd rfl hl
    | cons a t =>
      have h1 : List.foldl shiftPush (a :: t) (v :: rest) =
          List.foldl shiftPush (t ++ [v]) rest := by
        simp [List.foldl_cons, shiftPush]
      rw [h1, ih (t ++ [v]) (by simp)]
      simp [List.drop_succ_cons, List.append_assoc]

theorem applyLive_hist_lengths {s t : AppState} {live : LiveData}
    {now : String} {n : Nat} (hn : 1 ≤ n)
    (h1 : s.history.hedgeRatio.length = n)
    (h2 : s.history.spreadVelocity.length = n)
    (h3 : s.history.timestamps.length = n)
    (h : applyLive s live now = Except.ok t) :
    t.history.hedgeRatio.length = n ∧ t.history.spreadVelocity.length = n ∧
      t.history.timestamps.length = n := by
  by_cases hg : (truthyLive live && (getProp live "z_score").isSome) = true
  · rw [applyLive, if_pos hg] at h
    rcases hz : mergeNum s.analytics.z_score (getProp live "z_score") 2 with e | z
    · rw [hz, exbind_err] at h; exact absurd h (by simp)
    rcases hh : mergeNum s.analytics.hedge_ratio (getProp live "hedge_ratio") 4
      with e | hv
    · rw [hz, exbind_ok, hh, exbind_err] at h; exact absurd h (by simp)
    rcases hsp : mergeNum s.analytics.latest_spread (getProp live "latest_spread") 3
      with e | spv
    · rw [hz, exbind_ok, hh, exbind_ok, hsp, exbind_err] at h
      exact absurd h (by simp)
    rw [hz, exbind_ok, hh, exbind_ok, hsp, exbind_ok] at h
    obtain rfl : _ = t := Except.ok.inj h
    refine ⟨?_, ?_, ?_⟩ <;>
      simp [updateHistory, shiftPush_length, h1, h2, h3, hn,
        shiftPush_length _ (h1 ▸ hn), shiftPush_length _ (h2 ▸ hn),
        shiftPush_length _ (h3 ▸ hn)]
  · rw [applyLive_gate_false (by simpa using hg)] at h
    obtain rfl : s = t := Except.ok.inj h
    exact ⟨h1, h2, h3⟩

/-- C4: the three rolling-history series keep equal length (the configured
capacity, 10 in the source) under any number of accepted updates; each
update shifts all three series left by one and pushes one new element at the
tail in the same operation, so after any fold of appends the buffer is the
last `capacity` elements of the appended stream: the tail is the most recent
value and the head the oldest retained one (FIFO evict-oldest), with index
correspondence across the three series. -/
theorem C4_rolling_history_fifo :
    (∀ (s : AppState) (msgs : List (LiveData × String)) (t : AppState) (n : Nat),
        1 ≤ n →
        s.history.hedgeRatio.length = n →
        s.history.spreadVelocity.length = n →
        s.history.timestamps.length = n →
        runUpdates s msgs = Except.ok t →
        t.history.hedgeRatio.length = n ∧ t.history.spreadVelocity.length = n ∧
          t.history.timestamps.length = n) ∧
    (∀ (p : Analytics) (h : History) (c : Analytics) (now : String),
        (updateHistory p h c now).hedgeRatio =
            shiftPush h.hedgeRatio c.hedge_ratio ∧
        (updateHistory p h c now).timestamps = shiftPush h.timestamps now ∧
        ∃ v, (updateHistory p h c now).spreadVelocity =
            shiftPush h.spreadVelocity v) ∧
    (∀ (α : Type) (l vs : List α), l ≠ [] →
        List.foldl shiftPush l vs = (l ++ vs).drop vs.length) ∧
    (∀ (α : Type) (l vs : List α) (x : α), l ≠ [] →
        (List.foldl shiftPush l (vs ++ [x])).getLast? = some x) := by
  refine ⟨?_, ?_, ?_, ?_⟩
  · intro s msgs
    induction msgs generalizing s with
    | nil =>
      intro t n hn h1 h2 h3 hr
      obtain rfl : s = t := Except.ok.inj hr
      exact ⟨h1, h2, h3⟩
    | cons m rest ih =>
      intro t n hn h1 h2 h3 hr
      rw [runUpdates] at hr
      rcases hstep : applyLive s m.1 m.2 with e | s'
      · rw [hstep] at hr; exact absurd hr (by simp)
      rw [hstep] at hr
      obtain ⟨g1, g2, g3⟩ := applyLive_hist_lengths hn h1 h2 h3 hstep
      exact ih s' t n hn g1 g2 g3 hr
  · intro p h c now
    exact ⟨rfl, rfl, _, rfl⟩
  · intro α l vs hl
    exact foldl_shiftPush vs l hl
  · intro α l vs x hl
    rw [List.foldl_append, foldl_shiftPush vs l hl]
    exact shiftPush_getLast? _ x

/-- Witness for C4: capacity 10, the spec's scenario feed, and a concrete
three-sample fold. -/
theorem C4_witness :
    ((runUpdates (initApp 10) scenarioMsgs).map
        (fun t => (t.history.hedgeRatio.length, t.history.spreadVelocity.length,
          t.history.timestamps.length)) = Except.ok (10, 10, 10)) ∧
      List.foldl shiftPush [1, 2, 3] [4, 5] = [3, 4, 5] := by
  constructor
  · obtain ⟨t, hr⟩ : ∃ t, runUpdates (initApp 10) scenarioMsgs = Except.ok t :=
      ⟨_, rfl⟩
    obtain ⟨g1, g2, g3⟩ := C4_rolling_history_fifo.1 (initApp 10) scenarioMsgs
      t 10 (by decide) (by decide) (by decide) (by decide) hr
    rw [hr, exmap_ok, g1, g2, g3]
  · rw [C4_rolling_history_fifo.2.2.1 ℕ [1, 2, 3] [4, 5] (by decide)]
    rfl

/-! ## C5: spread-velocity semantics -/

/-- C5 counterexample: with spreads 0 then 5 the claim demands a velocity of
`5 - 0 = 5` at the second sample, but the code appends `0`: the stored
previous spread `"0.000"` parses to the falsy `0`, so
`parseFloat(prev) || currentSpread` falls back to the current spread. -/
theorem C5_counterexample :
    (runUpdates (initApp 3) zeroSpreadMsgs).map
        (fun t => t.history.spreadVelocity.getLast?) =
      Except.ok (some (some 0)) ∧ (5 : ℚ) - 0 ≠ 0 := by
  constructor
  · simp [runUpdates, scenarioMsgs, zeroSpreadMsgs, applyLive, mkMsg, getProp,
      getField, truthyLive, truthyJson, mergeNum, jsToFixed, mergeTruthy,
      updateHistory, shiftPush, initApp, initAnalytics, initHistory,
      Except.map, roundTo, round_eq, exbind_ok, exbind_err, exmap_ok, exmap_err]
    norm_num
  · norm_num

/-- C5 (amended): the velocity appended at the first-ever sample carrying a
numeric spread is 0; at a later sample with incoming numeric spread `q` the
appended velocity is `roundTo 3 q - p` where `p` is the stored (3-decimal
rounded) previous spread, provided `p ≠ 0` (a stored spread of 0, being
falsy, is treated like a missing one and yields velocity 0).  The spec's
scenario holds: capacity 3, hedge ratios 1, 2, 3, 4, spreads 10, 12, 9, 9
give hedge history `[2, 3, 4]`, velocity history `[2, -3, 0]` and 3
timestamps. -/
theorem C5_velocity_amended :
    (∀ (s t : AppState) (live : LiveData) (now : String) (q : ℚ),
        s.analytics.latest_spread = none →
        getProp live "latest_spread" = some (.jnum q) →
        (truthyLive live && (getProp live "z_score").isSome) = true →
        applyLive s live now = Except.ok t →
        t.history.spreadVelocity.getLast? = some (some 0)) ∧
    (∀ (s t : AppState) (live : LiveData) (now : String) (p q : ℚ),
        s.analytics.latest_spread = some p → p ≠ 0 →
        getProp live "latest_spread" = some (.jnum q) →
        (truthyLive live && (getProp live "z_score").isSome) = true →
        applyLive s live now = Except.ok t →
        t.history.spreadVelocity.getLast? = some (some (roundTo 3 q - p))) ∧
    (runUpdates (initApp 3) scenarioMsgs).map
        (fun t => (t.history.hedgeRatio, t.history.spreadVelocity,
          t.history.timestamps.length)) =
      Except.ok ([some 2, some 3, some 4], [some 2, some (-3), some 0], 3) := by
  refine ⟨?_, ?_, ?_⟩
  · intro s t live now q hnone hq hg h
    rw [applyLive, if_pos hg] at h
    rcases hz : mergeNum s.analytics.z_score (getProp live "z_score") 2 with e | z
    · rw [hz, exbind_err] at h; exact absurd h (by simp)
    rcases hh : mergeNum s.analytics.hedge_ratio (getProp live "hedge_ratio") 4
      with e | hv
    · rw [hz, exbind_ok, hh, exbind_err] at h; exact absurd h (by simp)
    rw [hz, exbind_ok, hh, exbind_ok, hq] at h
    rw [show mergeNum s.analytics.latest_spread (some (.jnum q)) 3 =
        Except.ok (some (roundTo 3 q)) from rfl, exbind_ok] at h
    obtain rfl : _ = t := Except.ok.inj h
    simp [updateHistory, hnone, shiftPush_getLast?]
  · intro s t live now p q hp hp0 hq hg h
    rw [applyLive, if_pos hg] at h
    rcases hz : mergeNum s.analytics.z_score (getProp live "z_score") 2 with e | z
    · rw [hz, exbind_err] at h; exact absurd h (by simp)
    rcases hh : mergeNum s.analytics.hedge_ratio (getProp live "hedge_ratio") 4
      with e | hv
    · rw [hz, exbind_ok, hh, exbind_err] at h; exact absurd h (by simp)
    rw [hz, exbind_ok, hh, exbind_ok, hq] at h
    rw [show mergeNum s.analytics.latest_spread (some (.jnum q)) 3 =
        Except.ok (some (roundTo 3 q)) from rfl, exbind_ok] at h
    obtain rfl : _ = t := Except.ok.inj h
    simp [updateHistory, hp, hp0, shiftPush_getLast?]
  · simp [runUpdates, scenarioMsgs, zeroSpreadMsgs, applyLive, mkMsg, getProp,
      getField, truthyLive, truthyJson, mergeNum, jsToFixed, mergeTruthy,
      updateHistory, shiftPush, initApp, initAnalytics, initHistory,
      Except.map, roundTo, round_eq, exbind_ok, exbind_err, exmap_ok, exmap_err]
    norm_num

/-- Witness for C5: second scenario sample, previous stored spread 10,
incoming spread 12, appended velocity 2. -/
theorem C5_witness :
    ∃ t, applyLive
        { analytics :=
            { initAnalytics with
              z_score := some 0,
              hedge_ratio := some 1,
              latest_spread := some 10 },
          prevAnalytics := initAnalytics,
          history := initHistory 3 } (mkMsg 0 2 12) "b" = Except.ok t ∧
      t.history.spreadVelocity.getLast? = some (some (roundTo 3 12 - 10)) := by
  refine ⟨_, rfl, ?_⟩
  exact C5_velocity_amended.2.1 _ _ (mkMsg 0 2 12) "b" 10 12 rfl (by norm_num)
    rfl rfl rfl

/-! ## C9: URL resolution -/

/-- C9 counterexample: with no URL override but the window-global
`__WS_PORT__` set to `"9000"`, the derived URL uses port 9000, not the
claimed fixed `:8000`. -/
theorem C9_counterexample :
    getUrl none ⟨true, none, some "9000", true, "http:", "example.com"⟩ =
        "ws://example.com:9000/ws/live-analytics" ∧
      "ws://example.com:9000/ws/live-analytics" ≠
        "ws://example.com:8000/ws/live-analytics" := by
  constructor
  · rfl
  · decide

/-- C9 (amended): a non-empty explicit string override is used verbatim; a
non-empty `window.__WS_URL__` global is likewise used verbatim; otherwise,
with no port-global set, the URL is
`<scheme>://<host>:8000/ws/live-analytics` with `wss:` exactly when the page
is served over `https:` (and host `localhost` when the hostname is empty);
with a non-empty `window.__WS_PORT__` global that port replaces 8000.
Resolution is a total function (never throws): when `window` is undefined or
location introspection fails, the hardcoded
`ws://localhost:8000/ws/live-analytics` default is returned. -/
theorem C9_url_resolution_amended :
    (∀ (s : String) (env : BrowserEnv), s ≠ "" → getUrl (some s) env = s) ∧
    (∀ env : BrowserEnv, env.windowDefined = true →
        truthyStr env.wsUrlGlobal = false → env.locationOk = true →
        truthyStr env.wsPortGlobal = false → env.protocol = "https:" →
        env.hostname ≠ "" →
        getUrl none env = "wss://" ++ env.hostname ++ ":8000/ws/live-analytics") ∧
    (∀ env : BrowserEnv, env.windowDefined = true →
        truthyStr env.wsUrlGlobal = false → env.locationOk = true →
        truthyStr env.wsPortGlobal = false → env.protocol ≠ "https:" →
        env.hostname ≠ "" →
        getUrl none env = "ws://" ++ env.hostname ++ ":8000/ws/live-analytics") ∧
    (∀ env : BrowserEnv, env.windowDefined = false →
        getUrl none env = "ws://localhost:8000/ws/live-analytics") ∧
    (∀ env : BrowserEnv, env.windowDefined = true →
        truthyStr env.wsUrlGlobal = false → env.locationOk = false →
        getUrl none env = "ws://localhost:8000/ws/live-analytics") ∧
    (∀ (env : BrowserEnv) (u : String), env.windowDefined = true →
        env.wsUrlGlobal = some u → u ≠ "" → getUrl none env = u) ∧
    (∀ (env : BrowserEnv) (p : String), env.windowDefined = true →
        truthyStr env.wsUrlGlobal = false → env.locationOk = true →
        env.wsPortGlobal = some p → p ≠ "" → env.hostname ≠ "" →
        getUrl none env = (if env.protocol = "https:" then "wss:" else "ws:") ++
          "//" ++ env.hostname ++ ":" ++ p ++ "/ws/live-analytics") := by
  refine ⟨?_, ?_, ?_, ?_, ?_, ?_, ?_⟩
  · intro s env hs
    rw [getUrl, if_pos (fun hlen => hs (length_zero_eq_empty
      (by omega : s.length = 0)))]
  · intro env h1 h2 h3 h4 h5 h6
    simp [getUrl, buildDefaultUrl, h1, h2, h3, h4, h5, h6,
      DEFAULT_BACKEND_PORT, DEFAULT_PATH, String.append_assoc]
  · intro env h1 h2 h3 h4 h5 h6
    simp [getUrl, buildDefaultUrl, h1, h2, h3, h4, h5, h6,
      DEFAULT_BACKEND_PORT, DEFAULT_PATH, String.append_assoc]
  · intro env h1
    simp [getUrl, buildDefaultUrl, h1, DEFAULT_BACKEND_PORT, DEFAULT_PATH]
  · intro env h1 h2 h3
    simp [getUrl, buildDefaultUrl, h1, h2, h3, DEFAULT_BACKEND_PORT,
      DEFAULT_PATH]
  · intro env u h1 h2 h3
    simp [getUrl, buildDefaultUrl, h1, h2, truthyStr, h3]
  · intro env p h1 h2 h3 h4 h5 h6
    rcases hu : env.wsUrlGlobal with _ | u
    · simp [getUrl, buildDefaultUrl, h1, h3, h4, h5, h6, hu, truthyStr,
        DEFAULT_BACKEND_PORT, DEFAULT_PATH, String.append_assoc]
    · rw [hu] at h2
      simp only [truthyStr, Bool.not_eq_true', decide_eq_true_eq] at h2
      simp [getUrl, buildDefaultUrl, h1, h2, h3, h4, h5, h6, hu, truthyStr,
        DEFAULT_BACKEND_PORT, DEFAULT_PATH, String.append_assoc]

/-- Witness for C9: override used verbatim, and the default https derivation. -/
theorem C9_witness :
    getUrl (some "ws://override:1/x")
        ⟨true, none, none, true, "https:", "example.com"⟩ = "ws://override:1/x" ∧
      getUrl none ⟨true, none, none, true, "https:", "example.com"⟩ =
        "wss://example.com:8000/ws/live-analytics" := by
  constructor
  · exact C9_url_resolution_amended.1 "ws://override:1/x"
      ⟨true, none, none, true, "https:", "example.com"⟩ (by decide)
  · have h := C9_url_resolution_amended.2.1
      ⟨true, none, none, true, "https:", "example.com"⟩ rfl rfl rfl rfl rfl
      (by decide)
    simpa using h

/-! ## Connection-manager invariants -/

theorem inv_scheduleReconnect {s : HookState} (h : Inv s) :
    Inv (scheduleReconnect s) := by
  obtain ⟨ha, hl⟩ := h
  rw [scheduleReconnect]
  by_cases h1 : (!s.shouldConnect) = true
  · rw [if_pos h1]; exact ⟨ha, hl⟩
  rw [if_neg h1]
  by_cases h2 : s.timerRef.isSome = true
  · rw [if_pos h2]; exact ⟨ha, hl⟩
  rw [if_neg h2]
  have ht : s.timerRef = none := by
    rcases htr : s.timerRef with _ | id
    · rfl
    · rw [htr] at h2; simp at h2
  constructor
  · rw [ArmedInv] at ha
    rw [ht] at ha
    show s.armed ++ [(s.nextTimer, RECONNECT_MS)] = _
    rw [ha]
    rfl
  · exact hl

theorem inv_connectAttempt (ok : Bool) {s : HookState} (h : Inv s) :
    Inv (connectAttempt ok s) := by
  obtain ⟨ha, hl⟩ := h
  rw [connectAttempt]
  by_cases h1 : (!s.shouldConnect) = true
  · rw [if_pos h1]; exact ⟨ha, hl⟩
  rw [if_neg h1]
  by_cases h2 : (match s.wsRef with
      | some i => isLiveRS (s.rsOf i)
      | none => false) = true
  · rw [if_pos h2]; exact ⟨ha, hl⟩
  rw [if_neg h2]
  by_cases h3 : ok = true
  · rw [if_pos h3]
    constructor
    · exact ha
    · intro i hi
      simp only [updF] at hi
      by_cases hieq : i = s.numSocks
      · show some s.numSocks = some i
        rw [hieq]
      · rw [if_neg hieq] at hi
        exact absurd (by rw [hl i hi] at h2 ⊢; simpa using hi) h2
  · rw [if_neg h3]
    exact inv_scheduleReconnect ⟨ha, hl⟩

theorem clearTimer_armed {s : HookState} (ha : ArmedInv s) :
    (clearTimer s).armed = [] ∧ (clearTimer s).timerRef = none := by
  rw [clearTimer]
  rcases htr : s.timerRef with _ | id
  · rw [ArmedInv, htr] at ha
    exact ⟨ha, htr⟩
  · rw [ArmedInv, htr] at ha
    rw [ha]
    simp

theorem clearTimer_rest (s : HookState) :
    (clearTimer s).shouldConnect = s.shouldConnect ∧
      (clearTimer s).rsOf = s.rsOf ∧ (clearTimer s).attachedOf = s.attachedOf ∧
      (clearTimer s).wsRef = s.wsRef ∧ (clearTimer s).readyState = s.readyState ∧
      (clearTimer s).liveData = s.liveData ∧
      (clearTimer s).numSocks = s.numSocks := by
  rw [clearTimer]
  rcases s.timerRef with _ | id <;> exact ⟨rfl, rfl, rfl, rfl, rfl, rfl, rfl⟩

theorem cleanupSocket_spec {s : HookState} (ha : ArmedInv s) (hl : LiveUnique s) :
    (cleanupSocket s).shouldConnect = s.shouldConnect ∧
      (cleanupSocket s).timerRef = none ∧ (cleanupSocket s).armed = [] ∧
      (cleanupSocket s).wsRef = none ∧
      (cleanupSocket s).readyState = s.readyState ∧
      (cleanupSocket s).liveData = s.liveData ∧
      (∀ i, isLiveRS ((cleanupSocket s).rsOf i) = false) := by
  obtain ⟨sc, ns, rs, att, wr, tr, ar, nt, rdy, ld⟩ := s
  rw [ArmedInv] at ha
  rcases tr with _ | tid <;> rcases wr with _ | j <;> simp only at ha <;> subst ha
  · have hred : cleanupSocket ⟨sc, ns, rs, att, none, none, [], nt, rdy, ld⟩ =
        ⟨sc, ns, rs, att, none, none, [], nt, rdy, ld⟩ := by
      simp only [cleanupSocket, clearTimer]
    rw [hred]
    refine ⟨rfl, rfl, rfl, rfl, rfl, rfl, ?_⟩
    intro i
    rcases h : isLiveRS (rs i) with _ | _
    · rfl
    · exact Option.noConfusion (hl i h)
  · by_cases hlj : isLiveRS (rs j) = true
    · have hred : cleanupSocket ⟨sc, ns, rs, att, some j, none, [], nt, rdy, ld⟩ =
          ⟨sc, ns, updF rs j 2, updF att j false, none, none, [], nt, rdy, ld⟩ := by
        simp only [cleanupSocket, clearTimer, closeSock, if_pos hlj]
      rw [hred]
      refine ⟨rfl, rfl, rfl, rfl, rfl, rfl, ?_⟩
      intro i
      simp only [updF]
      by_cases hij : i = j
      · rw [if_pos hij]; rfl
      · rw [if_neg hij]
        rcases h : isLiveRS (rs i) with _ | _
        · rfl
        · exact absurd (Option.some.inj (hl i h)).symm hij
    · have hred : cleanupSocket ⟨sc, ns, rs, att, some j, none, [], nt, rdy, ld⟩ =
          ⟨sc, ns, rs, updF att j false, none, none, [], nt, rdy, ld⟩ := by
        simp only [cleanupSocket, clearTimer, closeSock, if_neg hlj]
      rw [hred]
      refine ⟨rfl, rfl, rfl, rfl, rfl, rfl, ?_⟩
      intro i
      rcases h : isLiveRS (rs i) with _ | _
      · rfl
      · obtain rfl : i = j := (Option.some.inj (hl i h)).symm
        exact absurd h (by simpa using hlj)
  · have hfil : List.filter (fun t => !(t.1 = tid)) [(tid, RECONNECT_MS)] = [] := by
      simp
    have hred : cleanupSocket ⟨sc, ns, rs, att, none, some tid,
        [(tid, RECONNECT_MS)], nt, rdy, ld⟩ =
        ⟨sc, ns, rs, att, none, none, [], nt, rdy, ld⟩ := by
      simp only [cleanupSocket, clearTimer, hfil]
    rw [hred]
    refine ⟨rfl, rfl, rfl, rfl, rfl, rfl, ?_⟩
    intro i
    rcases h : isLiveRS (rs i) with _ | _
    · rfl
    · exact Option.noConfusion (hl i h)
  · have hfil : List.filter (fun t => !(t.1 = tid)) [(tid, RECONNECT_MS)] = [] := by
      simp
    by_cases hlj : isLiveRS (rs j) = true
    · have hred : cleanupSocket ⟨sc, ns, rs, att, some j, some tid,
          [(tid, RECONNECT_MS)], nt, rdy, ld⟩ =
          ⟨sc, ns, updF rs j 2, updF att j false, none, none, [], nt, rdy, ld⟩ := by
        simp only [cleanupSocket, clearTimer, closeSock, hfil, if_pos hlj]
      rw [hred]
      refine ⟨rfl, rfl, rfl, rfl, rfl, rfl, ?_⟩
      intro i
      simp only [updF]
      by_cases hij : i = j
      · rw [if_pos hij]; rfl
      · rw [if_neg hij]
        rcases h : isLiveRS (rs i) with _ | _
        · rfl
        · exact absurd (Option.some.inj (hl i h)).symm hij
    · have hred : cleanupSocket ⟨sc, ns, rs, att, some j, some tid,
          [(tid, RECONNECT_MS)], nt, rdy, ld⟩ =
          ⟨sc, ns, rs, updF att j false, none, none, [], nt, rdy, ld⟩ := by
        simp only [cleanupSocket, clearTimer, closeSock, hfil, if_neg hlj]
      rw [hred]
      refine ⟨rfl, rfl, rfl, rfl, rfl, rfl, ?_⟩
      intro i
      rcases h : isLiveRS (rs i) with _ | _
      · rfl
      · obtain rfl : i = j := (Option.some.inj (hl i h)).symm
        exact absurd h (by simpa using hlj)

theorem inv_cleanupSocket {s : HookState} (h : Inv s) : Inv (cleanupSocket s) := by
  obtain ⟨ha, hl⟩ := h
  obtain ⟨_, htr, hta, hwr, _, _, hlive⟩ := cleanupSocket_spec ha hl
  constructor
  · rw [ArmedInv, htr, hta]
  · intro i hi
    rw [hlive i] at hi
    exact absurd hi (by simp)

theorem inv_step {s : HookState} (e : Ev) (h : Inv s) : Inv (step s e) := by
  obtain ⟨ha, hl⟩ := h
  cases e with
  | connect ok => exact inv_connectAttempt ok ⟨ha, hl⟩
  | timerFire id ok =>
    simp only [step]
    by_cases hany : (s.armed.any fun t => t.1 = id) = true
    · rw [if_pos hany]
      apply inv_connectAttempt
      constructor
      · rcases htr : s.timerRef with _ | tid
        · rw [ArmedInv, htr] at ha
          rw [ha] at hany
          simp at hany
        · rw [ArmedInv, htr] at ha
          rw [ha] at hany
          simp only [List.any_cons, List.any_nil, Bool.or_false,
            decide_eq_true_eq] at hany
          rw [ArmedInv]
          show List.filter (fun t => !(t.1 = id)) s.armed = []
          rw [ha, hany]
          simp
      · exact hl
    · rw [if_neg hany]
      exact ⟨ha, hl⟩
  | openE i =>
    simp only [step]
    by_cases h0 : s.rsOf i = 0
    · rw [if_pos h0]
      have hwi : s.wsRef = some i := hl i (by simp [isLiveRS, h0])
      have key : LiveUnique { s with rsOf := updF s.rsOf i 1 } := by
        intro j hj
        simp only [updF] at hj
        by_cases hji : j = i
        · show s.wsRef = some j
          rw [hji]
          exact hwi
        · rw [if_neg hji] at hj
          exact hl j hj
      by_cases hat : s.attachedOf i = true
      · rw [if_pos hat]
        exact ⟨ha, key⟩
      · rw [if_neg hat]
        exact ⟨ha, key⟩
    · rw [if_neg h0]
      exact ⟨ha, hl⟩
  | msgE i v =>
    simp only [step]
    by_cases hc : (s.rsOf i = 1 && s.attachedOf i) = true
    · rw [if_pos hc]
      exact ⟨ha, hl⟩
    · rw [if_neg hc]
      exact ⟨ha, hl⟩
  | errorE i =>
    simp only [step]
    by_cases hat : s.attachedOf i = true
    · rw [if_pos hat]
      rcases hw : s.wsRef with _ | j
      · simp only [hw]
        refine ⟨ha, ?_⟩
        intro k hk
        have hx := hl k hk
        rw [hw] at hx
        exact hx
      · simp only [hw, closeSock]
        by_cases hlj : isLiveRS (({ s with readyState := 3 } : HookState).rsOf j) = true
        · rw [if_pos hlj]
          refine ⟨ha, ?_⟩
          intro k hk
          simp only [updF] at hk
          by_cases hkj : k = j
          · rw [hkj]
          · rw [if_neg hkj] at hk
            have hx := hl k hk
            rw [hw] at hx
            exact hx
        · rw [if_neg hlj]
          refine ⟨ha, ?_⟩
          intro k hk
          have hx := hl k hk
          rw [hw] at hx
          exact hx
    · rw [if_neg hat]
      exact ⟨ha, hl⟩
  | closeE i =>
    simp only [step]
    by_cases h3 : s.rsOf i = 3
    · rw [if_pos h3]
      exact ⟨ha, hl⟩
    · rw [if_neg h3]
      have key : LiveUnique { s with rsOf := updF s.rsOf i 3 } := by
        intro j hj
        simp only [updF] at hj
        by_cases hji : j = i
        · rw [hji] at hj
          simp [isLiveRS] at hj
        · rw [if_neg hji] at hj
          exact hl j hj
      by_cases hat : s.attachedOf i = true
      · rw [if_pos hat]
        exact inv_scheduleReconnect ⟨ha, key⟩
      · rw [if_neg hat]
        exact ⟨ha, key⟩
  | teardown => exact inv_cleanupSocket ⟨ha, hl⟩

theorem inv_run {s : HookState} (evs : List Ev) (h : Inv s) : Inv (run s evs) := by
  induction evs generalizing s with
  | nil => exact h
  | cons e rest ih => exact ih (inv_step e h)

theorem inv_initHook : Inv initHook := by
  constructor
  · rfl
  · intro i hi
    simp [initHook, isLiveRS] at hi

theorem dead_teardown {s : HookState} (h : Inv s) : Dead (step s Ev.teardown) := by
  obtain ⟨ha, hl⟩ := h
  obtain ⟨c1, c2, c3, c4, c5, c6, c7⟩ :=
    cleanupSocket_spec (s := { s with shouldConnect := false }) ha hl
  exact ⟨c1, c4, c2, c3, fun i _ => c7 i⟩

theorem step_teardown_dead {t : HookState} (hd : Dead t) :
    step t Ev.teardown = t := by
  obtain ⟨h1, h2, h3, h4, h5⟩ := hd
  obtain ⟨sc, ns, rs, att, wr, tr, ar, nt, rdy, ld⟩ := t
  dsimp only at h1 h2 h3 h4
  subst h1
  subst h2
  subst h3
  subst h4
  rfl

theorem dead_step {t : HookState} (e : Ev) (hd : Dead t) :
    Dead (step t e) ∧ (step t e).liveData = t.liveData ∧
      ((step t e).readyState = t.readyState ∨ (step t e).readyState = 3) := by
  obtain ⟨h1, h2, h3, h4, h5⟩ := hd
  cases e with
  | connect ok =>
    have heq : step t (.connect ok) = t := by simp [step, connectAttempt, h1]
    rw [heq]
    exact ⟨⟨h1, h2, h3, h4, h5⟩, rfl, Or.inl rfl⟩
  | timerFire id ok =>
    have heq : step t (.timerFire id ok) = t := by simp [step, h4]
    rw [heq]
    exact ⟨⟨h1, h2, h3, h4, h5⟩, rfl, Or.inl rfl⟩
  | openE i =>
    by_cases h0 : t.rsOf i = 0
    · have hatt : t.attachedOf i = false := by
        rcases hat : t.attachedOf i with _ | _
        · rfl
        · have hx := h5 i hat
          rw [h0] at hx
          simp [isLiveRS] at hx
      have heq : step t (.openE i) = { t with rsOf := updF t.rsOf i 1 } := by
        simp [step, h0, hatt]
      rw [heq]
      refine ⟨⟨h1, h2, h3, h4, ?_⟩, rfl, Or.inl rfl⟩
      intro j hj
      by_cases hji : j = i
      · rw [hji] at hj
        rw [hj] at hatt
        exact absurd hatt (by simp)
      · simp only [updF, if_neg hji]
        exact h5 j hj
    · have heq : step t (.openE i) = t := by simp [step, h0]
      rw [heq]
      exact ⟨⟨h1, h2, h3, h4, h5⟩, rfl, Or.inl rfl⟩
  | msgE i v =>
    have hc : (t.rsOf i = 1 && t.attachedOf i) = false := by
      rcases hat : t.attachedOf i with _ | _
      · simp [hat]
      · have hx := h5 i hat
        simp only [isLiveRS, Bool.or_eq_false_iff, decide_eq_false_iff_not] at hx
        simp [hat, hx.2]
    have heq : step t (.msgE i v) = t := by simp [step, hc]
    rw [heq]
    exact ⟨⟨h1, h2, h3, h4, h5⟩, rfl, Or.inl rfl⟩
  | errorE i =>
    by_cases hat : t.attachedOf i = true
    · have heq : step t (.errorE i) = { t with readyState := 3 } := by
        simp [step, hat, h2]
      rw [heq]
      exact ⟨⟨h1, h2, h3, h4, h5⟩, rfl, Or.inr rfl⟩
    · have heq : step t (.errorE i) = t := by simp [step, hat]
      rw [heq]
      exact ⟨⟨h1, h2, h3, h4, h5⟩, rfl, Or.inl rfl⟩
  | closeE i =>
    by_cases hc3 : t.rsOf i = 3
    · have heq : step t (.closeE i) = t := by simp [step, hc3]
      rw [heq]
      exact ⟨⟨h1, h2, h3, h4, h5⟩, rfl, Or.inl rfl⟩
    · have hdd : ∀ j, t.attachedOf j = true →
          isLiveRS ((updF t.rsOf i 3) j) = false := by
        intro j hj
        by_cases hji : j = i
        · simp [updF, hji, isLiveRS]
        · simp only [updF, if_neg hji]
          exact h5 j hj
      by_cases hat : t.attachedOf i = true
      · have heq : step t (.closeE i) =
            { t with rsOf := updF t.rsOf i 3, readyState := 3 } := by
          simp [step, hc3, hat, scheduleReconnect, h1]
        rw [heq]
        exact ⟨⟨h1, h2, h3, h4, hdd⟩, rfl, Or.inr rfl⟩
      · have heq : step t (.closeE i) = { t with rsOf := updF t.rsOf i 3 } := by
          simp [step, hc3, hat]
        rw [heq]
        exact ⟨⟨h1, h2, h3, h4, hdd⟩, rfl, Or.inl rfl⟩
  | teardown =>
    have heq := step_teardown_dead ⟨h1, h2, h3, h4, h5⟩
    rw [heq]
    exact ⟨⟨h1, h2, h3, h4, h5⟩, rfl, Or.inl rfl⟩

theorem dead_run {t : HookState} (evs : List Ev) (hd : Dead t) :
    Dead (run t evs) ∧ (run t evs).liveData = t.liveData ∧
      ((run t evs).readyState = t.readyState ∨ (run t evs).readyState = 3) ∧
      (run t evs).armed = [] := by
  induction evs generalizing t with
  | nil => exact ⟨hd, rfl, Or.inl rfl, hd.2.2.2.1⟩
  | cons e rest ih =>
    obtain ⟨hd', hld, hrs⟩ := dead_step e hd
    obtain ⟨hd2, hld2, hrs2, har2⟩ := ih hd'
    refine ⟨hd2, hld2.trans hld, ?_, har2⟩
    rcases hrs2 with h | h
    · rcases hrs with h' | h'
      · exact Or.inl (h.trans h')
      · exact Or.inr (h.trans h')
    · exact Or.inr h

theorem countP_le_one_of_unique {p : Nat → Bool} :
    ∀ l : List Nat, l.Nodup →
      (∀ a, a ∈ l → ∀ b, b ∈ l → p a = true → p b = true → a = b) →
      l.countP p ≤ 1 := by
  intro l
  induction l with
  | nil => intro _ _; simp
  | cons a tl ih =>
    intro hnd hu
    obtain ⟨hna, hndtl⟩ := List.nodup_cons.mp hnd
    rw [List.countP_cons]
    by_cases hpa : p a = true
    · have hz : tl.countP p = 0 := by
        rw [List.countP_eq_zero]
        intro b hb hpb
        have hba : b = a :=
          hu b (List.mem_cons_of_mem a hb) a (List.mem_cons_self a tl) hpb hpa
        exact hna (hba ▸ hb)
      rw [hz]
      simp [hpa]
    · have hle : tl.countP p ≤ 1 := ih hndtl
        (fun x hx y hy => hu x (List.mem_cons_of_mem a hx) y
          (List.mem_cons_of_mem a hy))
      simpa [hpa] using hle

/-! ## C1: single live transport -/

/-- C1: over every event sequence (transport events, connect calls, timer
fires, teardown) the hook holds at most one transport handle that is
simultaneously OPEN or CONNECTING, and `connect` is a no-op whenever the
currently referenced handle's readyState is OPEN or CONNECTING. -/
theorem C1_single_live_transport :
    (∀ evs : List Ev, liveCount (run initHook evs) ≤ 1) ∧
    (∀ (s : HookState) (i : Nat) (ok : Bool),
        s.wsRef = some i → (s.rsOf i = 0 ∨ s.rsOf i = 1) →
        step s (.connect ok) = s) := by
  constructor
  · intro evs
    have hl : LiveUnique (run initHook evs) := (inv_run evs inv_initHook).2
    rw [liveCount]
    apply countP_le_one_of_unique _ (List.nodup_range _)
    intro a _ b _ hpa hpb
    have h1 := hl a hpa
    have h2 := hl b hpb
    rw [h1] at h2
    exact Option.some.inj h2
  · intro s i ok hw hrs
    have hlive : isLiveRS (s.rsOf i) = true := by
      rcases hrs with h | h <;> simp [isLiveRS, h]
    show connectAttempt ok s = s
    rw [connectAttempt]
    by_cases h1 : (!s.shouldConnect) = true
    · rw [if_pos h1]
    · rw [if_neg h1, if_pos (show (match s.wsRef with
        | some j => isLiveRS (s.rsOf j)
        | none => false) = true by rw [hw]; exact hlive)]

/-- Witness for C1: a state with an OPEN referenced socket makes connect a
no-op, and the empty trace has at most one live handle. -/
theorem C1_witness :
    step { initHook with numSocks := 1, rsOf := fun _ => 1, wsRef := some 0 }
        (Ev.connect true) =
      { initHook with numSocks := 1, rsOf := fun _ => 1, wsRef := some 0 } ∧
      liveCount (run initHook []) ≤ 1 :=
  ⟨C1_single_live_transport.2 _ 0 true rfl (Or.inr rfl),
   C1_single_live_transport.1 []⟩

/-! ## C2: teardown quiescence -/

/-- C2 counterexample: in the trace `abandonTrace`, socket 1 is abandoned by
`connect` while CLOSING with its handlers still attached; after teardown its
close event still fires the `onclose` handler and moves the reported state
from Connecting (0) to Closed (3) — a state-change emission after teardown,
contradicting the claim that none occurs. -/
theorem C2_counterexample :
    abandonTrace.getLast? = some Ev.teardown ∧
      (run initHook abandonTrace).readyState = 0 ∧
      (run initHook (abandonTrace ++ [Ev.closeE 1])).readyState = 3 := by
  refine ⟨rfl, ?_, ?_⟩ <;> rfl

/-- C2 (amended): after teardown, no message is ever delivered (`liveData` is
frozen), no reconnect timer is armed or fires (the armed set stays empty),
and teardown is idempotent; the one remaining emission is that the reported
state may still move to Closed (3) via a close or error event of a transport
handle that an earlier `connect` abandoned with handlers attached — the
handlers of the currently referenced transport are detached before it is
closed, so the teardown-induced close itself cannot re-enter the reconnect
path. -/
theorem C2_teardown_amended :
    ∀ evs evsPost : List Ev,
      (run (run initHook (evs ++ [Ev.teardown])) evsPost).liveData =
          (run initHook (evs ++ [Ev.teardown])).liveData ∧
        (run (run initHook (evs ++ [Ev.teardown])) evsPost).armed = [] ∧
        ((run (run initHook (evs ++ [Ev.teardown])) evsPost).readyState =
            (run initHook (evs ++ [Ev.teardown])).readyState ∨
          (run (run initHook (evs ++ [Ev.teardown])) evsPost).readyState = 3) ∧
        step (run initHook (evs ++ [Ev.teardown])) Ev.teardown =
          run initHook (evs ++ [Ev.teardown]) := by
  intro evs evsPost
  have hinv : Inv (run initHook evs) := inv_run evs inv_initHook
  have hrw : run initHook (evs ++ [Ev.teardown]) =
      step (run initHook evs) Ev.teardown := by
    rw [run, List.foldl_append]
    rfl
  have hd : Dead (run initHook (evs ++ [Ev.teardown])) := by
    rw [hrw]
    exact dead_teardown hinv
  obtain ⟨_, hld, hrs, har⟩ := dead_run evsPost hd
  exact ⟨hld, har, hrs, step_teardown_dead hd⟩

/-! ## C7: at most one pending reconnect timer -/

/-- C7: at most one reconnect timer is ever pending; `scheduleReconnect` is a
no-op when a timer is already pending, and otherwise (while started) arms
one timer with the fixed 5000 ms delay; when the timer fires it clears the
pending-timer marker and invokes connect — which is a no-op when the manager
was torn down, so after teardown a fire leaves only the cleared marker. -/
theorem C7_single_reconnect_timer :
    (∀ evs : List Ev, (run initHook evs).armed.length ≤ 1) ∧
    (∀ s : HookState, s.timerRef.isSome = true → scheduleReconnect s = s) ∧
    (∀ s : HookState, s.shouldConnect = true → s.timerRef = none →
        (scheduleReconnect s).armed = s.armed ++ [(s.nextTimer, 5000)] ∧
          (scheduleReconnect s).timerRef = some s.nextTimer) ∧
    (∀ (s : HookState) (id : Nat) (ok : Bool), ArmedInv s →
        (id, RECONNECT_MS) ∈ s.armed →
        step s (.timerFire id ok) =
          connectAttempt ok { s with armed := [], timerRef := none }) ∧
    (∀ (s : HookState) (id : Nat) (ok : Bool), ArmedInv s →
        (id, RECONNECT_MS) ∈ s.armed → s.shouldConnect = false →
        step s (.timerFire id ok) = { s with armed := [], timerRef := none }) := by
  have fire : ∀ (s : HookState) (id : Nat) (ok : Bool), ArmedInv s →
      (id, RECONNECT_MS) ∈ s.armed →
      step s (.timerFire id ok) =
        connectAttempt ok { s with armed := [], timerRef := none } := by
    intro s id ok ha hmem
    rcases htr : s.timerRef with _ | tid
    · rw [ArmedInv, htr] at ha
      rw [ha] at hmem
      simp at hmem
    · rw [ArmedInv, htr] at ha
      have hid : tid = id := by
        rw [ha] at hmem
        simp only [List.mem_singleton, Prod.mk.injEq] at hmem
        exact hmem.1.symm
      have hfil : s.armed.filter (fun t => !(t.1 = id)) = [] := by
        rw [ha, hid]
        simp
      have hany : (s.armed.any fun t => t.1 = id) = true := by
        rw [ha, hid]
        simp
      simp only [step, if_pos hany, hfil]
  refine ⟨?_, ?_, ?_, fire, ?_⟩
  · intro evs
    have ha : ArmedInv (run initHook evs) := (inv_run evs inv_initHook).1
    rw [ArmedInv] at ha
    rcases htr : (run initHook evs).timerRef with _ | tid <;> rw [htr] at ha <;>
      simp [ha]
  · intro s hsome
    rw [scheduleReconnect]
    by_cases h1 : (!s.shouldConnect) = true
    · rw [if_pos h1]
    · rw [if_neg h1, if_pos hsome]
  · intro s hsc htr
    rw [scheduleReconnect, if_neg (by rw [hsc]; simp),
      if_neg (by rw [htr]; simp)]
    exact ⟨rfl, rfl⟩
  · intro s id ok ha hmem hsc
    rw [fire s id ok ha hmem, connectAttempt, if_pos (by rw [hsc]; rfl)]

/-- Witness for C7: concrete states exercising the no-op, arming and firing
branches. -/
theorem C7_witness :
    scheduleReconnect { initHook with timerRef := some 0, armed := [(0, 5000)] } =
        { initHook with timerRef := some 0, armed := [(0, 5000)] } ∧
      (scheduleReconnect initHook).armed = [(0, 5000)] ∧
      step { initHook with
          shouldConnect := false,
          timerRef := some 0,
          armed := [(0, 5000)] } (.timerFire 0 true) =
        { initHook with
          shouldConnect := false,
          armed := [],
          timerRef := none } :=
  ⟨C7_single_reconnect_timer.2.1 _ rfl,
   (C7_single_reconnect_timer.2.2.1 initHook rfl rfl).1,
   C7_single_reconnect_timer.2.2.2.2 _ 0 true rfl (by simp [RECONNECT_MS]) rfl⟩

theorem connectAttempt_armed_of_pending (ok : Bool) {s : HookState}
    (hsome : s.timerRef.isSome = true) :
    (connectAttempt ok s).armed = s.armed := by
  rw [connectAttempt]
  by_cases h1 : (!s.shouldConnect) = true
  · rw [if_pos h1]
  · rw [if_neg h1]
    by_cases h2 : (match s.wsRef with
        | some i => isLiveRS (s.rsOf i)
        | none => false) = true
    · rw [if_pos h2]
    · rw [if_neg h2]
      by_cases h3 : ok = true
      · rw [if_pos h3]
      · rw [if_neg h3, scheduleReconnect]
        by_cases h4 : (!(({ s with readyState := 0 } : HookState).shouldConnect)) = true
        · rw [if_pos h4]
        · rw [if_neg h4, if_pos hsome]

/-! ## C8: synchronous constructor failure -/

/-- C8: when the transport constructor throws synchronously during connect
(with the manager started, no referenced live handle and no pending timer),
the reported state has been set to Connecting, exactly one reconnect timer is
armed with the 5000 ms delay, no transport is constructed (no immediate
retry), connect returns (totality: it never rethrows), and a repeated failing
connect does not arm a duplicate timer. -/
theorem C8_constructor_failure :
    ∀ s : HookState, s.shouldConnect = true → s.timerRef = none → ArmedInv s →
      (match s.wsRef with
        | some i => ¬(s.rsOf i = 0 ∨ s.rsOf i = 1)
        | none => True) →
      (step s (.connect false)).readyState = 0 ∧
        (step s (.connect false)).armed = [(s.nextTimer, 5000)] ∧
        (step s (.connect false)).timerRef = some s.nextTimer ∧
        (step s (.connect false)).numSocks = s.numSocks ∧
        (step s (.connect false)).rsOf = s.rsOf ∧
        (step s (.connect false)).wsRef = s.wsRef ∧
        (step s (.connect false)).liveData = s.liveData ∧
        (step (step s (.connect false)) (.connect false)).armed =
          (step s (.connect false)).armed := by
  intro s hsc htr ha hnl
  have hguard : (match s.wsRef with
      | some j => isLiveRS (s.rsOf j)
      | none => false) = false := by
    rcases hw : s.wsRef with _ | j
    · rfl
    · rw [hw] at hnl
      show isLiveRS (s.rsOf j) = false
      rcases h : isLiveRS (s.rsOf j) with _ | _
      · rfl
      · simp only [isLiveRS, Bool.or_eq_true, decide_eq_true_eq] at h
        exact absurd h hnl
  have harm : s.armed = [] := by
    rw [ArmedInv, htr] at ha
    exact ha
  have heq : step s (.connect false) =
      { s with
        readyState := 0,
        armed := [(s.nextTimer, 5000)],
        timerRef := some s.nextTimer,
        nextTimer := s.nextTimer + 1 } := by
    show connectAttempt false s = _
    rw [connectAttempt, if_neg (by rw [hsc]; simp), if_neg (by rw [hguard]; simp),
      if_neg (by simp), scheduleReconnect, if_neg (by rw [hsc]; simp),
      if_neg (by rw [htr]; simp)]
    rw [show RECONNECT_MS = 5000 from rfl, harm]
    rfl
  rw [heq]
  exact ⟨rfl, rfl, rfl, rfl, rfl, rfl, rfl,
    connectAttempt_armed_of_pending false rfl⟩

/-- Witness for C8: constructor failure from the freshly mounted state. -/
theorem C8_witness :
    (step initHook (.connect false)).readyState = 0 ∧
      (step initHook (.connect false)).armed = [(0, 5000)] :=
  ⟨(C8_constructor_failure initHook rfl rfl rfl trivial).1,
   (C8_constructor_failure initHook rfl rfl rfl trivial).2.1⟩

end QuantDash
